import Mathlib

/-!
Verification of `pkg/rpc/server/server.go` (infrakit RPC plugin server).

The Go source is shallowly embedded below: the pure data flow of
`startAtPath` (registration, handshake-map construction, publisher wiring,
bind / discovery-marker handling) is modelled as a Lean function from an
environment of injected failure outcomes to an `Effects` record plus an
`Except` result, mirroring the statement order of the source.  The
forwarding-goroutine body, the subscription interceptor and the logging
HTTP wrapper are modelled as step functions on explicit state.
-/

namespace InfrakitRPC

/-- `spi.InterfaceSpec`: an immutable (name, version) pair used as map key. -/
structure InterfaceSpec where
  name : String
  version : String
deriving DecidableEq, Repr

/-- `event.Event` as used by the forwarding loop: a topic plus a payload.
The loop only reads `event.Topic.String()`, so the topic is kept as the
string it stringifies to. -/
structure Event where
  topic : String
  payload : String
deriving DecidableEq, Repr

/-- A `VersionedInterface` backing object (server.go 76–81), together with
the two optional capabilities the source discovers by runtime type
inspection (`event.Publisher`, `event.Validator`, server.go 125 and 161)
and the method names the dispatch layer would expose for it.
`validateOk topic` models `Validate(types.PathFromString(topic)) == nil`. -/
structure BackingObject where
  iface : InterfaceSpec
  types : List String
  methods : List String
  isPublisher : Bool
  isValidator : Bool
  validateOk : String → Bool

/-- Errors `startAtPath` can return, tagged by the failing step. -/
inductive StartError where
  | registration (method : String)
  | handshakeRegistration
  | pluginInfo
  | bind
  | markerWrite
deriving DecidableEq, Repr

/-- Modelled from the spec: the vendored dispatch layer
(`rpc.Server.RegisterService`, gorilla code not included under the given
sources) "fails with a RegistrationError if any object's method set cannot
be exposed by the dispatch layer (e.g., name collision with another
object)".  It is modelled as: registration fails iff one of the object's
method names is already registered, and otherwise adds them. -/
def registerService (registered : List String) (methods : List String) :
    Except String (List String) :=
  match methods.find? (fun m => registered.contains m) with
  | some m => .error m
  | none => .ok (registered ++ methods)

/-- Modelled from the spec: the handshake object is itself registered as an
additional exposed service ("Registers itself as an additional exposed
service so a client can query the full map", spec 4.1); its exposed method
names are this fixed list. -/
def hsMethods : List String := ["Handshake.Implements"]

/-- The Go map `map[spi.InterfaceSpec][]string`, observed through lookups:
a key either has exactly one value or is absent, like a Go map. -/
def IfaceMap : Type := InterfaceSpec → Option (List String)

/-- The empty map literal of server.go 104. -/
def emptyIfaceMap : IfaceMap := fun _ => none

/-- Go map assignment `m[k] = v`: the entry for `k` is (over)written. -/
def mapInsert (m : IfaceMap) (k : InterfaceSpec) (v : List String) : IfaceMap :=
  fun q => if q = k then some v else m q

/-- The registration loop of server.go 105–112: for each target, first the
map assignment `interfaces[t.ImplementedInterface()] = t.Types()`, then
`server.RegisterService(t, "")`; the loop aborts at the first registration
error.  Returns the accumulated interface map, the accumulated registered
method names, and the first colliding method name if any. -/
def registerTargets : List BackingObject → IfaceMap →
    List String → IfaceMap × List String × Option String
  | [], ifaces, reg => (ifaces, reg, none)
  | t :: rest, ifaces, reg =>
    let ifaces' := mapInsert ifaces t.iface t.types
    match registerService reg t.methods with
    | .error m => (ifaces', reg, some m)
    | .ok reg' => registerTargets rest ifaces' reg'

/-- The publisher wiring loop (server.go 123–143) touches exactly the
targets implementing `event.Publisher`; this is the list of their indices
in registration order. -/
def publisherIndices (targets : List BackingObject) : List Nat :=
  (List.range targets.length).filter
    (fun i => ((targets.get? i).map (fun t => t.isPublisher)).getD false)

/-- Injected outcomes of the effectful steps of `startAtPath`:
the address list and discovery path arguments, whether `net.Listen` fails,
whether `ioutil.WriteFile` of the marker fails, and whether
`NewPluginInfo` (defined in a sibling file of the same package, not among
the given sources) fails. -/
structure Env where
  listen : List String
  discoverPath : String
  bindFails : Bool
  markerWriteFails : Bool
  pluginInfoFails : Bool
deriving DecidableEq, Repr

/-- Observable effects of one `startAtPath` call (and of the shutdown
goroutine): which method names were registered, which target indices got a
dedicated event channel / a `PublishOn` call / a forwarding goroutine,
whether and where the TCP listener was bound, whether the unix socket path
or the remote marker file exists on the filesystem, the marker file's
content, and the listener / broker / serve-goroutine state. -/
structure Effects where
  registeredMethods : List String := []
  channels : List Nat := []
  publishOnCalls : List Nat := []
  forwardTasks : List Nat := []
  boundAddr : Option String := none
  listenerBound : Bool := false
  listenerClosed : Bool := false
  socketExists : Bool := false
  fileExists : Bool := false
  markerContent : Option String := none
  brokerStopped : Bool := false
  serveTaskStarted : Bool := false
deriving DecidableEq, Repr

/-- The handle a successful `startAtPath` returns, as far as the claims
are concerned: the interface map served by the handshake service. -/
structure Handle where
  handshake : IfaceMap

/-- The advertise address of remote mode (server.go 196–199): the second
bind address if one is supplied, else the first. -/
def advertiseOf : List String → String
  | _ :: b :: _ => b
  | [a] => a
  | [] => ""

/-- Shallow embedding of `startAtPath` (server.go 96–232), following the
statement order of the source:
1. register each target, building the interface map as a side effect of
   the same loop (105–112), returning the first registration error;
2. register the handshake service over the built map (115–117);
3. for each `event.Publisher` target, allocate one channel, call
   `PublishOn`, and spawn one forwarding goroutine (123–143);
4. `NewPluginInfo(receiver)` (146–149);
5. remote mode (`len(listen) > 0`, 185–204): `net.Listen("tcp", listen[0])`,
   then write `tcp://<advertise>` to the discovery path — on write failure
   the function returns the error without touching the bound listener;
6. local mode (206–218): `net.Listen("unix", discoverPath)`, whose success
   creates the socket path;
7. spawn the serve goroutine (220–229) and return the handle. -/
def startAtPath (env : Env) (receiver : BackingObject) (more : List BackingObject) :
    Effects × Except StartError Handle :=
  let targets := receiver :: more
  let (ifaces, reg, regErr) := registerTargets targets emptyIfaceMap []
  let e0 : Effects := { registeredMethods := reg }
  match regErr with
  | some m => (e0, .error (.registration m))
  | none =>
    match registerService reg hsMethods with
    | .error _ => (e0, .error .handshakeRegistration)
    | .ok reg2 =>
      let pubs := publisherIndices targets
      let e1 := { e0 with registeredMethods := reg2, channels := pubs,
                          publishOnCalls := pubs, forwardTasks := pubs }
      if env.pluginInfoFails then (e1, .error .pluginInfo)
      else
        match env.listen with
        | a :: _ =>
          if env.bindFails then (e1, .error .bind)
          else
            let e2 := { e1 with boundAddr := some a, listenerBound := true }
            if env.markerWriteFails then (e2, .error .markerWrite)
            else
              let e3 := { e2 with fileExists := true,
                                  markerContent := some ("tcp://" ++ advertiseOf env.listen),
                                  serveTaskStarted := true }
              (e3, .ok { handshake := ifaces })
        | [] =>
          if env.bindFails then (e1, .error .bind)
          else
            let e2 := { e1 with socketExists := true, listenerBound := true,
                                serveTaskStarted := true }
            (e2, .ok { handshake := ifaces })

/-- The tail of the serve goroutine (server.go 220–229), i.e. what happens
once `gracefulServer.Serve(listener)` returns on shutdown: the graceful
server has closed the listener (for a unix-socket listener Go's `net`
package unlinks the socket file on close), then `events.Stop()` runs, and
then, when `len(listen) > 0` (remote mode), `os.Remove(discoverPath)`
deletes the discovery marker file. -/
def shutdown (env : Env) (e : Effects) : Effects :=
  { e with listenerClosed := true,
           socketExists := false,
           brokerStopped := true,
           fileExists := if env.listen.isEmpty then e.fileExists else false }

/-- `broker.ErrInvalidTopic(topic)` as the interceptor produces it. -/
inductive BrokerError where
  | invalidTopic (topic : String)
deriving DecidableEq, Repr

/-- The subscription interceptor's `Pre` hook (server.go 159–168): iterate
the targets in order; the first one that implements `event.Validator` and
whose `Validate` succeeds admits the subscription (`return nil`);
otherwise the loop falls through to `broker.ErrInvalidTopic(topic)`.
`none` models the nil error (admission). -/
def interceptorPre (targets : List BackingObject) (topic : String) :
    Option BrokerError :=
  match targets with
  | [] => some (.invalidTopic topic)
  | t :: rest =>
    if t.isValidator && t.validateOk topic then none
    else interceptorPre rest topic

/-- State of an `http.ResponseWriter` / `httptest.ResponseRecorder`: the
status code, the header map, and the accumulated body bytes. -/
structure HttpResponseState where
  code : Nat
  headers : List (String × String)
  body : List Nat
deriving DecidableEq, Repr

/-- `httptest.NewRecorder()`: fresh recorder, default status 200, no
headers, empty body. -/
def newRecorder : HttpResponseState := { code := 200, headers := [], body := [] }

/-- An inbound HTTP request, opaque to the wrapper apart from the bytes
`httputil.DumpRequest` would serialize. -/
structure HttpRequest where
  raw : List Nat
deriving DecidableEq, Repr

/-- Accumulated log lines (logrus calls), to make the logging effects of
the wrapper visible. -/
structure LogState where
  lines : List String
deriving DecidableEq, Repr

/-- `loggingHandler.ServeHTTP` (server.go 52–73).  The wrapped handler is
any function that writes into the response writer it is handed.  Dump
outcomes (`httputil.DumpRequest` / `DumpResponse` succeeding or failing)
are injected as booleans; either way only a log line is produced.  The
handler runs against a fresh recorder, never against the live writer `w`;
afterwards `w.WriteHeader(recorder.Code)` and
`recorder.Body.WriteTo(w)` replay the recorded status and body — and
nothing else — onto `w`. -/
def loggingServeHTTP (handler : HttpRequest → HttpResponseState → HttpResponseState)
    (dumpRequestOk dumpResponseOk : Bool) (req : HttpRequest)
    (w : HttpResponseState) (lg : LogState) : HttpResponseState × LogState :=
  let lg1 : LogState :=
    { lines := lg.lines ++
        [if dumpRequestOk then "debug: received request" else "error: dump request"] }
  let recorder := handler req newRecorder
  let lg2 : LogState :=
    { lines := lg1.lines ++
        [if dumpResponseOk then "debug: sending response" else "error: dump response"] }
  let w1 := { w with code := recorder.code }
  let w2 := { w1 with body := w1.body ++ recorder.body }
  (w2, lg2)

/-- State of one forwarding goroutine (server.go 134–142). -/
inductive TaskState where
  | running
  | done
deriving DecidableEq, Repr

/-- The broker, abstracted to the log of `Publish` calls it received and
whether `Stop` was called. -/
structure BrokerState where
  published : List (String × Event)
  stopped : Bool
deriving DecidableEq, Repr

/-- `events.Publish(topic, event, 1s)` as the forwarding loop calls it. -/
def brokerPublish (b : BrokerState) (topic : String) (ev : Event) : BrokerState :=
  { b with published := b.published ++ [(topic, ev)] }

/-- One iteration of the forwarding-goroutine body (server.go 135–141):
`msg = none` models `ok == false` (the publisher closed its channel), on
which the goroutine returns; an event is forwarded via
`events.Publish(event.Topic.String(), event, 1s)`. -/
def forwardStep (st : TaskState) (msg : Option Event) (b : BrokerState) :
    TaskState × BrokerState :=
  match st, msg with
  | .done, _ => (.done, b)
  | .running, none => (.done, b)
  | .running, some ev => (.running, brokerPublish b ev.topic ev)

/-- The forwarding tasks and the broker they share: one task state per
publisher (indexed in registration order) plus the broker. -/
structure BridgeState where
  tasks : List TaskState
  broker : BrokerState
deriving DecidableEq, Repr

/-- Delivery of one message (or of the channel-closure signal, `none`) on
publisher `k`'s dedicated channel: only task `k` runs a step; every other
task has its own channel and is untouched. -/
def deliver (s : BridgeState) (k : Nat) (msg : Option Event) : BridgeState :=
  match s.tasks.get? k with
  | none => s
  | some st =>
    let (st', b') := forwardStep st msg s.broker
    { tasks := s.tasks.set k st', broker := b' }

/-- The whole running server, as far as post-startup transitions are
concerned: the handshake map the handshake service answers with, the
startup effects, and the event bridge. -/
structure ServerState where
  handshake : IfaceMap
  effects : Effects
  bridge : BridgeState

/-- Post-startup operations: a subscription request (whose admission is
decided by `interceptorPre` and which does not write any server state an
embedded claim mentions), delivery of a message or closure on one
publisher channel, and the shutdown path. -/
inductive ServerOp where
  | subscribe (topic : String)
  | deliverMsg (k : Nat) (msg : Option Event)
  | stop
deriving Repr

/-- Transition function for post-startup operations.  No operation after
startup writes the `interfaces` map (server.go never mentions it after
line 115). -/
def serverStep (env : Env) (s : ServerState) : ServerOp → ServerState
  | .subscribe _ => s
  | .deliverMsg k msg => { s with bridge := deliver s.bridge k msg }
  | .stop => { s with effects := shutdown env s.effects,
                      bridge := { s.bridge with broker := { s.bridge.broker with stopped := true } } }

/-- Last-writer-wins lookup over the target list: the `Types()` of the
last target (in registration order) whose `ImplementedInterface()` is `k`,
if any. -/
def lastTypesFor : List BackingObject → InterfaceSpec → Option (List String)
  | [], _ => none
  | t :: rest, k =>
    match lastTypesFor rest k with
    | some v => some v
    | none => if t.iface = k then some t.types else none

/-! ### Concrete sample objects used by counterexamples and witnesses -/

/-- A plain backing object: one interface, no optional capability. -/
def plainObj : BackingObject :=
  { iface := { name := "X", version := "1.0" }, types := ["a", "b"],
    methods := ["X.DoIt"], isPublisher := false, isValidator := false,
    validateOk := fun _ => false }

/-- A backing object that implements `event.Publisher`. -/
def pubObj : BackingObject :=
  { iface := { name := "Y", version := "1.0" }, types := ["c"],
    methods := ["Y.DoIt"], isPublisher := true, isValidator := false,
    validateOk := fun _ => false }

/-- A backing object that implements `event.Validator` and accepts exactly
the topic `y/evt`. -/
def valObj : BackingObject :=
  { iface := { name := "V", version := "1.0" }, types := [],
    methods := ["V.DoIt"], isPublisher := false, isValidator := true,
    validateOk := fun t => t = "y/evt" }

/-- A remote-mode environment with no injected failures. -/
def remoteEnv : Env :=
  { listen := ["127.0.0.1:7070", "10.0.0.2:7070"], discoverPath := "/run/infrakit/p",
    bindFails := false, markerWriteFails := false, pluginInfoFails := false }

/-- A local-socket environment with no injected failures. -/
def localEnv : Env :=
  { listen := [], discoverPath := "/run/infrakit/p.sock",
    bindFails := false, markerWriteFails := false, pluginInfoFails := false }

/-- A remote-mode environment whose TCP bind fails. -/
def bindFailEnv : Env :=
  { listen := ["127.0.0.1:7070"], discoverPath := "/run/infrakit/p",
    bindFails := true, markerWriteFails := false, pluginInfoFails := false }

/-- The handle a successful remote-mode start with `plainObj` returns. -/
def remoteHandle : Handle :=
  { handshake := (registerTargets (plainObj :: []) emptyIfaceMap []).1 }

/-- The handle a successful remote-mode start with `pubObj` and
`plainObj` returns. -/
def pubHandle : Handle :=
  { handshake := (registerTargets (pubObj :: [plainObj]) emptyIfaceMap []).1 }

/-- A backing object sharing `dupB`'s interface spec with different types
and methods. -/
def dupA : BackingObject :=
  { iface := { name := "Z", version := "1.0" }, types := ["old"],
    methods := ["ZA.DoIt"], isPublisher := false, isValidator := false,
    validateOk := fun _ => false }

/-- A later backing object with the same interface spec as `dupA`. -/
def dupB : BackingObject :=
  { iface := { name := "Z", version := "1.0" }, types := ["new"],
    methods := ["ZB.DoIt"], isPublisher := false, isValidator := false,
    validateOk := fun _ => false }

/-- The handle a successful local-mode start with `dupA` and `dupB`
returns. -/
def dupHandle : Handle :=
  { handshake := (registerTargets (dupA :: [dupB]) emptyIfaceMap []).1 }

/-! ### Branch characterization of `startAtPath` -/

/-- All effects of a successful `startAtPath` run: the handle serves the
interface map built by the registration loop, the publisher wiring covered
exactly the Publisher targets, the listener is bound and not closed, the
serve goroutine is started, and the mode-appropriate discovery marker
exists. -/
theorem startAtPath_ok_spec (env : Env) (receiver : BackingObject)
    (more : List BackingObject) (h : Handle)
    (hok : (startAtPath env receiver more).2 = .ok h) :
    h.handshake = (registerTargets (receiver :: more) emptyIfaceMap []).1 ∧
    (startAtPath env receiver more).1.channels = publisherIndices (receiver :: more) ∧
    (startAtPath env receiver more).1.publishOnCalls = publisherIndices (receiver :: more) ∧
    (startAtPath env receiver more).1.forwardTasks = publisherIndices (receiver :: more) ∧
    (startAtPath env receiver more).1.listenerBound = true ∧
    (startAtPath env receiver more).1.listenerClosed = false ∧
    (startAtPath env receiver more).1.brokerStopped = false ∧
    (startAtPath env receiver more).1.serveTaskStarted = true ∧
    (env.listen = [] →
      (startAtPath env receiver more).1.socketExists = true ∧
      (startAtPath env receiver more).1.fileExists = false ∧
      (startAtPath env receiver more).1.markerContent = none ∧
      (startAtPath env receiver more).1.boundAddr = none) ∧
    (env.listen ≠ [] →
      (startAtPath env receiver more).1.boundAddr = env.listen.head? ∧
      (startAtPath env receiver more).1.fileExists = true ∧
      (startAtPath env receiver more).1.socketExists = false ∧
      (startAtPath env receiver more).1.markerContent =
        some ("tcp://" ++ advertiseOf env.listen)) ∧
    (registerTargets (receiver :: more) emptyIfaceMap []).2.2 = none := by
  obtain ⟨hh⟩ := h
  rcases hreg : registerTargets (receiver :: more) emptyIfaceMap [] with ⟨ifaces, reg, regErr⟩
  cases regErr with
  | some m => simp [startAtPath, hreg] at hok
  | none =>
    rcases hhs : registerService reg hsMethods with m | reg2
    · simp [startAtPath, hreg, hhs] at hok
    · cases hpi : env.pluginInfoFails with
      | true => simp [startAtPath, hreg, hhs, hpi] at hok
      | false =>
        rcases hl : env.listen with _ | ⟨a, rest⟩
        · cases hb : env.bindFails with
          | true => simp [startAtPath, hreg, hhs, hpi, hl, hb] at hok
          | false =>
            simp [startAtPath, hreg, hhs, hpi, hl, hb] at hok
            subst hok
            simp [startAtPath, hreg, hhs, hpi, hl, hb]
        · cases hb : env.bindFails with
          | true => simp [startAtPath, hreg, hhs, hpi, hl, hb] at hok
          | false =>
            cases hm : env.markerWriteFails with
            | true => simp [startAtPath, hreg, hhs, hpi, hl, hb, hm] at hok
            | false =>
              simp [startAtPath, hreg, hhs, hpi, hl, hb, hm] at hok
              subst hok
              simp [startAtPath, hreg, hhs, hpi, hl, hb, hm]

/-- All effects of a failed `startAtPath` run: no filesystem marker
artifact exists and the listener was never closed; before the publisher
wiring (registration errors) no forwarding task exists, after it
(plugin-info, bind, marker-write errors) the Publisher targets' forwarding
tasks are all still there; the listener is bound exactly when the failure
is the marker write. -/
theorem startAtPath_error_spec (env : Env) (receiver : BackingObject)
    (more : List BackingObject) (err : StartError)
    (herr : (startAtPath env receiver more).2 = .error err) :
    (startAtPath env receiver more).1.fileExists = false ∧
    (startAtPath env receiver more).1.socketExists = false ∧
    (startAtPath env receiver more).1.listenerClosed = false ∧
    (startAtPath env receiver more).1.serveTaskStarted = false ∧
    ((∃ m, err = .registration m) ∨ err = .handshakeRegistration →
        (startAtPath env receiver more).1.forwardTasks = [] ∧
        (startAtPath env receiver more).1.listenerBound = false) ∧
    (err = .pluginInfo ∨ err = .bind ∨ err = .markerWrite →
        (startAtPath env receiver more).1.forwardTasks =
          publisherIndices (receiver :: more)) ∧
    (err = .pluginInfo ∨ err = .bind →
        (startAtPath env receiver more).1.listenerBound = false) ∧
    (err = .markerWrite →
        (startAtPath env receiver more).1.listenerBound = true ∧ env.listen ≠ []) := by
  rcases hreg : registerTargets (receiver :: more) emptyIfaceMap [] with ⟨ifaces, reg, regErr⟩
  cases regErr with
  | some m =>
    simp [startAtPath, hreg] at herr
    subst herr
    simp [startAtPath, hreg]
  | none =>
    rcases hhs : registerService reg hsMethods with m | reg2
    · simp [startAtPath, hreg, hhs] at herr
      subst herr
      simp [startAtPath, hreg, hhs]
    · cases hpi : env.pluginInfoFails with
      | true =>
        simp [startAtPath, hreg, hhs, hpi] at herr
        subst herr
        simp [startAtPath, hreg, hhs, hpi]
      | false =>
        rcases hl : env.listen with _ | ⟨a, rest⟩
        · cases hb : env.bindFails with
          | true =>
            simp [startAtPath, hreg, hhs, hpi, hl, hb] at herr
            subst herr
            simp [startAtPath, hreg, hhs, hpi, hl, hb]
          | false => simp [startAtPath, hreg, hhs, hpi, hl, hb] at herr
        · cases hb : env.bindFails with
          | true =>
            simp [startAtPath, hreg, hhs, hpi, hl, hb] at herr
            subst herr
            simp [startAtPath, hreg, hhs, hpi, hl, hb]
          | false =>
            cases hm : env.markerWriteFails with
            | true =>
              simp [startAtPath, hreg, hhs, hpi, hl, hb, hm] at herr
              subst herr
              simp [startAtPath, hreg, hhs, hpi, hl, hb, hm]
            | false => simp [startAtPath, hreg, hhs, hpi, hl, hb, hm] at herr

/-! ### Helper lemmas -/

/-- Setting index `k` leaves every other position of the list unchanged. -/
theorem list_get_set_ne {α : Type _} (l : List α) (k j : Nat) (a : α) (hj : j ≠ k) :
    (l.set k a).get? j = l.get? j := by
  induction l generalizing k j with
  | nil => rfl
  | cons x xs ih =>
    cases k with
    | zero =>
      cases j with
      | zero => exact absurd rfl hj
      | succ m => rfl
    | succ n =>
      cases j with
      | zero => rfl
      | succ m => simpa using ih n m (fun hh => hj (by rw [hh]))

/-- Setting an in-range index `k` makes position `k` hold the new value. -/
theorem list_get_set_self {α : Type _} (l : List α) (k : Nat) (a : α) (st : α)
    (hg : l.get? k = some st) : (l.set k a).get? k = some a := by
  induction l generalizing k with
  | nil => simp at hg
  | cons x xs ih =>
    cases k with
    | zero => rfl
    | succ n => simpa using ih n (by simpa using hg)

/-- The publisher index list contains an index exactly when it addresses a
Publisher-implementing target. -/
theorem mem_publisherIndices (targets : List BackingObject) (i : Nat) :
    i ∈ publisherIndices targets ↔
      ∃ t, targets.get? i = some t ∧ t.isPublisher = true := by
  unfold publisherIndices
  rw [List.mem_filter, List.mem_range]
  constructor
  · rintro ⟨hlt, hp⟩
    rcases hg : targets.get? i with _ | t
    · rw [hg] at hp; simp at hp
    · rw [hg] at hp
      simp at hp
      exact ⟨t, rfl, hp⟩
  · rintro ⟨t, hg, hp⟩
    have hlt : i < targets.length := by
      by_contra hge
      rw [List.get?_eq_none.mpr (Nat.le_of_not_lt hge)] at hg
      cases hg
    exact ⟨hlt, by rw [hg]; simpa using hp⟩

/-- The publisher index list has no duplicates. -/
theorem publisherIndices_nodup (targets : List BackingObject) :
    (publisherIndices targets).Nodup :=
  (List.nodup_range targets.length).filter _

/-- A successful registration pass resolves a key to the last inserted
value for it, falling back to the initial map. -/
theorem registerTargets_ok_lookup : ∀ (ts : List BackingObject) (m0 : IfaceMap)
    (reg : List String),
    (registerTargets ts m0 reg).2.2 = none →
    ∀ k, (registerTargets ts m0 reg).1 k =
      match lastTypesFor ts k with
      | some v => some v
      | none => m0 k := by
  intro ts
  induction ts with
  | nil => intro m0 reg _ k; simp [registerTargets, lastTypesFor]
  | cons t rest ih =>
    intro m0 reg hnone k
    rw [registerTargets] at hnone ⊢
    rcases hrs : registerService reg t.methods with m | reg2
    · rw [hrs] at hnone
      simp at hnone
    · rw [hrs] at hnone
      dsimp only at hnone ⊢
      have hstep := ih (mapInsert m0 t.iface t.types) reg2 hnone k
      rw [hstep, lastTypesFor]
      cases hlt : lastTypesFor rest k with
      | some v => rfl
      | none =>
        by_cases hk : k = t.iface
        · simp [mapInsert, hk]
        · simp only [mapInsert, if_neg hk, if_neg (fun hh : t.iface = k => hk hh.symm)]

/-- Over the empty initial map, a successful registration pass computes
exactly the last-writer-wins view of the targets. -/
theorem registerTargets_map_eq_lastTypes (ts : List BackingObject)
    (hnone : (registerTargets ts emptyIfaceMap []).2.2 = none) (k : InterfaceSpec) :
    (registerTargets ts emptyIfaceMap []).1 k = lastTypesFor ts k := by
  rw [registerTargets_ok_lookup ts emptyIfaceMap [] hnone k]
  cases lastTypesFor ts k with
  | some v => rfl
  | none => rfl

/-- The last-writer-wins view has an entry exactly for the implemented
interface specs. -/
theorem lastTypesFor_isSome (ts : List BackingObject) (k : InterfaceSpec) :
    (lastTypesFor ts k).isSome = true ↔ k ∈ ts.map (fun t => t.iface) := by
  induction ts with
  | nil => simp [lastTypesFor]
  | cons t rest ih =>
    rw [lastTypesFor]
    cases hlt : lastTypesFor rest k with
    | some v =>
      simp only [Option.isSome_some, true_iff]
      exact List.mem_cons_of_mem _ (ih.mp (by rw [hlt]; rfl))
    | none =>
      by_cases hk : t.iface = k
      · simp [hk]
      · constructor
        · intro hs; rw [if_neg hk] at hs; cases hs
        · intro hmem
          rcases List.mem_cons.mp hmem with hmem | hmem
          · exact absurd hmem.symm hk
          · have := ih.mpr hmem; rw [hlt] at this; cases this

/-- Every entry of the last-writer-wins view is some target's `Types()`. -/
theorem lastTypesFor_mem (ts : List BackingObject) (k : InterfaceSpec) (v : List String)
    (hv : lastTypesFor ts k = some v) : ∃ t ∈ ts, t.iface = k ∧ t.types = v := by
  induction ts with
  | nil => simp [lastTypesFor] at hv
  | cons t rest ih =>
    rw [lastTypesFor] at hv
    cases hlt : lastTypesFor rest k with
    | some w =>
      rw [hlt] at hv
      injection hv with hw
      subst hw
      obtain ⟨u, hu, hik, hty⟩ := ih hlt
      exact ⟨u, List.mem_cons_of_mem _ hu, hik, hty⟩
    | none =>
      rw [hlt] at hv
      by_cases hk : t.iface = k
      · rw [if_pos hk] at hv
        exact ⟨t, List.mem_cons_self t rest, hk, by injection hv⟩
      · rw [if_neg hk] at hv; cases hv

/-- With pairwise-disjoint method names, none of which is already
registered, the registration pass succeeds and registers exactly the
concatenation of all method lists. -/
theorem registerTargets_ok_of_disjoint : ∀ (ts : List BackingObject) (m0 : IfaceMap)
    (reg : List String),
    List.Pairwise (fun a b => ∀ m ∈ a.methods, m ∉ b.methods) ts →
    (∀ t ∈ ts, ∀ m ∈ t.methods, m ∉ reg) →
    (registerTargets ts m0 reg).2.2 = none ∧
    (registerTargets ts m0 reg).2.1 = reg ++ (ts.map (fun t => t.methods)).flatten := by
  intro ts
  induction ts with
  | nil => intro m0 reg _ _; simp [registerTargets]
  | cons t rest ih =>
    intro m0 reg hpw hreg
    have hfind : t.methods.find? (fun m => reg.contains m) = none := by
      rw [List.find?_eq_none]
      intro m hm
      simpa using hreg t (List.mem_cons_self t rest) m hm
    rw [registerTargets, registerService, hfind]
    have hrest := ih (mapInsert m0 t.iface t.types) (reg ++ t.methods)
      (List.pairwise_cons.mp hpw).2
      (by
        intro u hu m hm hmem
        rcases List.mem_append.mp hmem with hmem | hmem
        · exact hreg u (List.mem_cons_of_mem _ hu) m hm hmem
        · exact absurd hm ((List.pairwise_cons.mp hpw).1 u hu m hmem))
    refine ⟨hrest.1, ?_⟩
    rw [hrest.2]
    simp [List.append_assoc]

/-- The interceptor admits a topic exactly when some target implements
Validator and validates it. -/
theorem interceptorPre_none_iff (targets : List BackingObject) (topic : String) :
    interceptorPre targets topic = none ↔
      ∃ t ∈ targets, t.isValidator = true ∧ t.validateOk topic = true := by
  induction targets with
  | nil => simp [interceptorPre]
  | cons t rest ih =>
    rw [interceptorPre]
    by_cases hc : (t.isValidator && t.validateOk topic) = true
    · rw [if_pos hc]
      constructor
      · intro _
        exact ⟨t, List.mem_cons_self t rest, Bool.and_eq_true_iff.mp hc⟩
      · intro _; rfl
    · rw [if_neg hc, ih]
      constructor
      · rintro ⟨u, hu, hv⟩; exact ⟨u, List.mem_cons_of_mem _ hu, hv⟩
      · rintro ⟨u, hu, hv⟩
        rcases List.mem_cons.mp hu with rfl | hu
        · exact absurd (Bool.and_eq_true_iff.mpr hv) hc
        · exact ⟨u, hu, hv⟩

/-- The interceptor either admits or rejects with exactly
`InvalidTopicError(topic)`. -/
theorem interceptorPre_shape (targets : List BackingObject) (topic : String) :
    interceptorPre targets topic = none ∨
    interceptorPre targets topic = some (.invalidTopic topic) := by
  induction targets with
  | nil => right; rfl
  | cons t rest ih =>
    rw [interceptorPre]
    by_cases hc : (t.isValidator && t.validateOk topic) = true
    · left; rw [if_pos hc]
    · rw [if_neg hc]; exact ih

/-! ### Claims -/

/-- C1: the claim states that when the discovery-marker write fails after a
successful TCP bind, `startAtPath` closes the already-open listener before
returning the error.  The source (server.go 200–202) returns the
`WriteFile` error without any `Close` call on the bound listener; at this
concrete failing input the run ends in the marker-write error with the
listener bound and not closed. -/
theorem C1_marker_write_error_leaves_listener_open :
    (startAtPath { listen := ["127.0.0.1:7070"], discoverPath := "/run/infrakit/p",
                   bindFails := false, markerWriteFails := true, pluginInfoFails := false }
       plainObj []).2 = .error .markerWrite ∧
    (startAtPath { listen := ["127.0.0.1:7070"], discoverPath := "/run/infrakit/p",
                   bindFails := false, markerWriteFails := true, pluginInfoFails := false }
       plainObj []).1.listenerBound = true ∧
    (startAtPath { listen := ["127.0.0.1:7070"], discoverPath := "/run/infrakit/p",
                   bindFails := false, markerWriteFails := true, pluginInfoFails := false }
       plainObj []).1.listenerClosed = false :=
  ⟨rfl, rfl, rfl⟩

/-- C2 counterexample: with one Publisher-implementing backing object and a
failing TCP bind, `startAtPath` returns the bind error while the
forwarding task spawned for target 0 is still running — refuting the
claim that no background task is left running on an error return. -/
theorem C2_counterexample_bind_error_leaves_forwarding_task :
    (startAtPath { listen := ["127.0.0.1:7070"], discoverPath := "/run/infrakit/p",
                   bindFails := true, markerWriteFails := false, pluginInfoFails := false }
       pubObj []).2 = .error .bind ∧
    (startAtPath { listen := ["127.0.0.1:7070"], discoverPath := "/run/infrakit/p",
                   bindFails := true, markerWriteFails := false, pluginInfoFails := false }
       pubObj []).1.forwardTasks = [0] :=
  ⟨rfl, rfl⟩

/-- C7 counterexample: at a concrete remote-mode input the marker file
exists after a successful start, and the shutdown path removes it
(`os.Remove(discoverPath)` runs exactly when `len(listen) > 0`,
server.go 226–228) — refuting the claim that after STOPPED the remote
marker file is left in place. -/
theorem C7_counterexample_remote_marker_removed :
    (startAtPath remoteEnv plainObj []).1.fileExists = true ∧
    (shutdown remoteEnv (startAtPath remoteEnv plainObj []).1).fileExists = false :=
  ⟨rfl, rfl⟩

/-- C5: for every wrapped handler and every request, the response the
client observes carries exactly the recorded status code and the recorded
body — and it is identical whether the two diagnostic serializations
(`DumpRequest`, `DumpResponse`) succeed or fail. -/
theorem C5_logging_wrapper_transparent
    (handler : HttpRequest → HttpResponseState → HttpResponseState)
    (d1 d2 : Bool) (req : HttpRequest) (lg : LogState) :
    (loggingServeHTTP handler d1 d2 req newRecorder lg).1.code =
      (handler req newRecorder).code ∧
    (loggingServeHTTP handler d1 d2 req newRecorder lg).1.body =
      (handler req newRecorder).body ∧
    (loggingServeHTTP handler d1 d2 req newRecorder lg).1 =
      (loggingServeHTTP handler true true req newRecorder lg).1 :=
  ⟨rfl, rfl, rfl⟩

/-- C10: the wrapper replays only the recorded status code and body: the
headers of the live response are exactly the live writer's previous
headers, regardless of any headers the wrapped handler set on the
recorder; the code and body are the recorded ones. -/
theorem C10_headers_not_replayed
    (handler : HttpRequest → HttpResponseState → HttpResponseState)
    (d1 d2 : Bool) (req : HttpRequest) (w : HttpResponseState) (lg : LogState) :
    (loggingServeHTTP handler d1 d2 req w lg).1.headers = w.headers ∧
    (loggingServeHTTP handler d1 d2 req w lg).1.code = (handler req newRecorder).code ∧
    (loggingServeHTTP handler d1 d2 req w lg).1.body =
      w.body ++ (handler req newRecorder).body :=
  ⟨rfl, rfl, rfl⟩

/-- C2 (amended): on a registration or handshake-registration error no
forwarding task has been spawned, but on a plugin-info, bind or
marker-write error the forwarding tasks already spawned — one per
Publisher-implementing target — are still running when the error is
returned; nothing stops them. -/
theorem C2_amended_tasks_surviving_error (env : Env) (receiver : BackingObject)
    (more : List BackingObject) (err : StartError)
    (herr : (startAtPath env receiver more).2 = .error err) :
    ((∃ m, err = .registration m) ∨ err = .handshakeRegistration →
        (startAtPath env receiver more).1.forwardTasks = []) ∧
    (err = .pluginInfo ∨ err = .bind ∨ err = .markerWrite →
        (startAtPath env receiver more).1.forwardTasks =
          publisherIndices (receiver :: more)) := by
  have h := startAtPath_error_spec env receiver more err herr
  exact ⟨fun hc => (h.2.2.2.2.1 hc).1, h.2.2.2.2.2.1⟩

/-- Witness for C2 (amended) at the bind-failure input with one Publisher
target. -/
theorem C2_amended_tasks_surviving_error_witness :
    (startAtPath bindFailEnv pubObj []).2 = .error .bind ∧
    (((∃ m, StartError.bind = .registration m) ∨ StartError.bind = .handshakeRegistration →
        (startAtPath bindFailEnv pubObj []).1.forwardTasks = []) ∧
     (StartError.bind = .pluginInfo ∨ StartError.bind = .bind ∨
        StartError.bind = .markerWrite →
        (startAtPath bindFailEnv pubObj []).1.forwardTasks =
          publisherIndices (pubObj :: []))) :=
  ⟨rfl, C2_amended_tasks_surviving_error bindFailEnv pubObj [] .bind rfl⟩

/-- C4: a subscription for a topic is admitted iff some backing object
implements Validator and validates it; with no Validator-implementing
object every subscription is rejected; rejection always carries exactly
`InvalidTopicError(topic)`; and the scan short-circuits: once a
succeeding validator occurs in the list, the targets after it cannot
change the outcome. -/
theorem C4_subscription_admission (targets : List BackingObject) (topic : String) :
    (interceptorPre targets topic = none ↔
      ∃ t ∈ targets, t.isValidator = true ∧ t.validateOk topic = true) ∧
    ((∀ t ∈ targets, t.isValidator = false) →
      interceptorPre targets topic = some (.invalidTopic topic)) ∧
    (interceptorPre targets topic ≠ none →
      interceptorPre targets topic = some (.invalidTopic topic)) ∧
    (∀ pre t rest rest', t.isValidator = true → t.validateOk topic = true →
      interceptorPre (pre ++ t :: rest) topic =
        interceptorPre (pre ++ t :: rest') topic) := by
  refine ⟨interceptorPre_none_iff targets topic, ?_, ?_, ?_⟩
  · intro hnoval
    rcases interceptorPre_shape targets topic with hsh | hsh
    · obtain ⟨t, ht, hv, _⟩ := (interceptorPre_none_iff targets topic).mp hsh
      rw [hnoval t ht] at hv
      cases hv
    · exact hsh
  · intro hne
    rcases interceptorPre_shape targets topic with hsh | hsh
    · exact absurd hsh hne
    · exact hsh
  · intro pre t rest rest' hv hok
    have h1 : interceptorPre (pre ++ t :: rest) topic = none :=
      (interceptorPre_none_iff _ topic).mpr
        ⟨t, List.mem_append.mpr (Or.inr (List.mem_cons_self t rest)), hv, hok⟩
    have h2 : interceptorPre (pre ++ t :: rest') topic = none :=
      (interceptorPre_none_iff _ topic).mpr
        ⟨t, List.mem_append.mpr (Or.inr (List.mem_cons_self t rest')), hv, hok⟩
    rw [h1, h2]

/-- Witness for C4 at a concrete target list: `valObj` validates `y/evt`
only, `plainObj` is no Validator. -/
theorem C4_subscription_admission_witness :
    (interceptorPre [plainObj, valObj] "y/evt" = none ↔
      ∃ t ∈ [plainObj, valObj], t.isValidator = true ∧ t.validateOk "y/evt" = true) ∧
    ((∀ t ∈ [plainObj, valObj], t.isValidator = false) →
      interceptorPre [plainObj, valObj] "y/evt" = some (.invalidTopic "y/evt")) ∧
    (interceptorPre [plainObj, valObj] "y/evt" ≠ none →
      interceptorPre [plainObj, valObj] "y/evt" = some (.invalidTopic "y/evt")) ∧
    (∀ pre t rest rest', t.isValidator = true → t.validateOk "y/evt" = true →
      interceptorPre (pre ++ t :: rest) "y/evt" =
        interceptorPre (pre ++ t :: rest') "y/evt") :=
  C4_subscription_admission [plainObj, valObj] "y/evt"

/-- C6: in remote mode the TCP listener is bound on the first address of
the list, and a successful run leaves the discovery marker containing
exactly `tcp://<advertise>`, where the advertise address is the second
address when one is supplied and the first otherwise. -/
theorem C6_remote_bind_and_marker (env : Env) (receiver : BackingObject)
    (more : List BackingObject) (h : Handle) (a : String) (rest : List String)
    (hl : env.listen = a :: rest)
    (hok : (startAtPath env receiver more).2 = .ok h) :
    (startAtPath env receiver more).1.boundAddr = some a ∧
    (startAtPath env receiver more).1.markerContent =
      some ("tcp://" ++ advertiseOf env.listen) ∧
    (rest = [] → advertiseOf env.listen = a) ∧
    (∀ b rest2, rest = b :: rest2 → advertiseOf env.listen = b) := by
  have hs := startAtPath_ok_spec env receiver more h hok
  have hne : env.listen ≠ [] := by rw [hl]; simp
  obtain ⟨hb, hf, hsock, hm⟩ := hs.2.2.2.2.2.2.2.2.2.1 hne
  refine ⟨?_, hm, ?_, ?_⟩
  · rw [hb, hl]; rfl
  · intro hr; rw [hl, hr]; rfl
  · intro b rest2 hr; rw [hl, hr]; rfl

/-- Witness for C6 at the concrete two-address remote environment. -/
theorem C6_remote_bind_and_marker_witness :
    remoteEnv.listen = "127.0.0.1:7070" :: ["10.0.0.2:7070"] ∧
    (startAtPath remoteEnv plainObj []).2 = .ok remoteHandle ∧
    ((startAtPath remoteEnv plainObj []).1.boundAddr = some "127.0.0.1:7070" ∧
     (startAtPath remoteEnv plainObj []).1.markerContent =
       some ("tcp://" ++ advertiseOf remoteEnv.listen) ∧
     (["10.0.0.2:7070"] = ([] : List String) → advertiseOf remoteEnv.listen = "127.0.0.1:7070") ∧
     (∀ b rest2, ["10.0.0.2:7070"] = b :: rest2 → advertiseOf remoteEnv.listen = b)) :=
  ⟨rfl, rfl, C6_remote_bind_and_marker remoteEnv plainObj [] remoteHandle
      "127.0.0.1:7070" ["10.0.0.2:7070"] rfl rfl⟩

/-- C7 (amended): the discovery marker is created only after a successful
bind — when the listener was never bound, neither the marker file nor the
socket path exists; on a successful start the mode's marker exists; and
after the server stops, the socket path no longer exists (local mode) and
the remote marker file is removed as well (by `os.Remove` on the discover
path), rather than possibly left in place as the claim states. -/
theorem C7_amended_marker_lifecycle (env : Env) (receiver : BackingObject)
    (more : List BackingObject) :
    ((startAtPath env receiver more).1.listenerBound = false →
        (startAtPath env receiver more).1.fileExists = false ∧
        (startAtPath env receiver more).1.socketExists = false) ∧
    (∀ h, (startAtPath env receiver more).2 = .ok h →
        (env.listen = [] → (startAtPath env receiver more).1.socketExists = true) ∧
        (env.listen ≠ [] → (startAtPath env receiver more).1.fileExists = true)) ∧
    (shutdown env (startAtPath env receiver more).1).socketExists = false ∧
    (env.listen ≠ [] →
        (shutdown env (startAtPath env receiver more).1).fileExists = false) := by
  refine ⟨?_, ?_, ?_, ?_⟩
  · intro hnb
    rcases hres : (startAtPath env receiver more).2 with errv | hv
    · exact ⟨(startAtPath_error_spec env receiver more errv hres).1,
             (startAtPath_error_spec env receiver more errv hres).2.1⟩
    · have hbt := (startAtPath_ok_spec env receiver more hv hres).2.2.2.2.1
      rw [hnb] at hbt
      cases hbt
  · intro h hok
    have hs := startAtPath_ok_spec env receiver more h hok
    exact ⟨fun hl => (hs.2.2.2.2.2.2.2.2.1 hl).1,
           fun hl => (hs.2.2.2.2.2.2.2.2.2.1 hl).2.1⟩
  · rfl
  · intro hne
    rcases hl : env.listen with _ | ⟨a, rest⟩
    · exact absurd hl hne
    · simp [shutdown, hl]

/-- Witness for C7 (amended) at the concrete remote environment. -/
theorem C7_amended_marker_lifecycle_witness :
    ((startAtPath remoteEnv plainObj []).1.listenerBound = false →
        (startAtPath remoteEnv plainObj []).1.fileExists = false ∧
        (startAtPath remoteEnv plainObj []).1.socketExists = false) ∧
    (∀ h, (startAtPath remoteEnv plainObj []).2 = .ok h →
        (remoteEnv.listen = [] → (startAtPath remoteEnv plainObj []).1.socketExists = true) ∧
        (remoteEnv.listen ≠ [] → (startAtPath remoteEnv plainObj []).1.fileExists = true)) ∧
    (shutdown remoteEnv (startAtPath remoteEnv plainObj []).1).socketExists = false ∧
    (remoteEnv.listen ≠ [] →
        (shutdown remoteEnv (startAtPath remoteEnv plainObj []).1).fileExists = false) :=
  C7_amended_marker_lifecycle remoteEnv plainObj []

/-- C8: a successful start allocates the dedicated channels, issues the
`PublishOn` calls and spawns the forwarding tasks for exactly the
Publisher-implementing targets — the three lists coincide, are
duplicate-free, and contain an index iff it addresses a Publisher
target — and delivering the channel-closure signal to one publisher's
task terminates that task alone: every other task's state and the broker
are unchanged. -/
theorem C8_publisher_wiring_isolation (env : Env) (receiver : BackingObject)
    (more : List BackingObject) (h : Handle)
    (hok : (startAtPath env receiver more).2 = .ok h) :
    (startAtPath env receiver more).1.channels = publisherIndices (receiver :: more) ∧
    (startAtPath env receiver more).1.publishOnCalls = publisherIndices (receiver :: more) ∧
    (startAtPath env receiver more).1.forwardTasks = publisherIndices (receiver :: more) ∧
    (publisherIndices (receiver :: more)).Nodup ∧
    (∀ i, i ∈ publisherIndices (receiver :: more) ↔
        ∃ t, (receiver :: more).get? i = some t ∧ t.isPublisher = true) ∧
    (∀ s : BridgeState, ∀ k : Nat, ∀ st, s.tasks.get? k = some st →
        (deliver s k none).tasks.get? k = some .done ∧
        (∀ j, j ≠ k → (deliver s k none).tasks.get? j = s.tasks.get? j) ∧
        (deliver s k none).broker = s.broker) := by
  have hs := startAtPath_ok_spec env receiver more h hok
  refine ⟨hs.2.1, hs.2.2.1, hs.2.2.2.1, publisherIndices_nodup _,
      fun i => mem_publisherIndices _ i, ?_⟩
  intro s k st hg
  unfold deliver
  rw [hg]
  cases st with
  | running =>
    exact ⟨list_get_set_self s.tasks k .done .running hg,
           fun j hj => list_get_set_ne s.tasks k j .done hj, rfl⟩
  | done =>
    exact ⟨list_get_set_self s.tasks k .done .done hg,
           fun j hj => list_get_set_ne s.tasks k j .done hj, rfl⟩

/-- Witness for C8: a start with Publisher target 0 and plain target 1,
and a concrete two-task bridge. -/
theorem C8_publisher_wiring_isolation_witness :
    (startAtPath remoteEnv pubObj [plainObj]).2 = .ok pubHandle ∧
    ((startAtPath remoteEnv pubObj [plainObj]).1.channels =
        publisherIndices (pubObj :: [plainObj]) ∧
     (startAtPath remoteEnv pubObj [plainObj]).1.publishOnCalls =
        publisherIndices (pubObj :: [plainObj]) ∧
     (startAtPath remoteEnv pubObj [plainObj]).1.forwardTasks =
        publisherIndices (pubObj :: [plainObj]) ∧
     (publisherIndices (pubObj :: [plainObj])).Nodup ∧
     (∀ i, i ∈ publisherIndices (pubObj :: [plainObj]) ↔
        ∃ t, (pubObj :: [plainObj]).get? i = some t ∧ t.isPublisher = true) ∧
     (∀ s : BridgeState, ∀ k : Nat, ∀ st, s.tasks.get? k = some st →
        (deliver s k none).tasks.get? k = some .done ∧
        (∀ j, j ≠ k → (deliver s k none).tasks.get? j = s.tasks.get? j) ∧
        (deliver s k none).broker = s.broker)) :=
  ⟨rfl, C8_publisher_wiring_isolation remoteEnv pubObj [plainObj] pubHandle rfl⟩

/-- C9: the handshake map served after a successful start resolves every
interface spec to the `Types()` of the last target in registration order
(primary first, then the additional objects in the given order) that
implements it; with two targets sharing a spec, the earlier one's
`Types()` is silently overwritten, the map holding a single value per
spec by construction. -/
theorem C9_duplicate_iface_last_writer_wins (env : Env) (receiver : BackingObject)
    (more : List BackingObject) (h : Handle)
    (hok : (startAtPath env receiver more).2 = .ok h) (k : InterfaceSpec) :
    h.handshake k = lastTypesFor (receiver :: more) k := by
  have hs := startAtPath_ok_spec env receiver more h hok
  have hnone := hs.2.2.2.2.2.2.2.2.2.2
  rw [hs.1]
  exact registerTargets_map_eq_lastTypes (receiver :: more) hnone k

/-- Witness for C9: two targets share the spec `(Z, 1.0)`; the served map
resolves it to the later target's types, `["new"]`. -/
theorem C9_duplicate_iface_last_writer_wins_witness :
    (startAtPath localEnv dupA [dupB]).2 = .ok dupHandle ∧
    dupHandle.handshake { name := "Z", version := "1.0" } =
      lastTypesFor (dupA :: [dupB]) { name := "Z", version := "1.0" } ∧
    lastTypesFor (dupA :: [dupB]) { name := "Z", version := "1.0" } = some ["new"] :=
  ⟨rfl, C9_duplicate_iface_last_writer_wins localEnv dupA [dupB] dupHandle rfl _, rfl⟩

/-- C3: with pairwise-disjoint method names that also avoid the handshake
service's own exposed method names, registration of every target and of
the handshake service succeeds; the built map has an entry exactly for the
interface specs implemented by the targets, each entry being the
`Types()` of a target implementing that spec; the map a successful start
serves is that built map; and no post-startup operation changes it. -/
theorem C3_registration_and_handshake_map (env : Env) (receiver : BackingObject)
    (more : List BackingObject)
    (hpw : List.Pairwise (fun a b => ∀ m ∈ a.methods, m ∉ b.methods) (receiver :: more))
    (hhs : ∀ t ∈ receiver :: more, ∀ m ∈ t.methods, m ∉ hsMethods) :
    (registerTargets (receiver :: more) emptyIfaceMap []).2.2 = none ∧
    (∃ reg2, registerService
        (registerTargets (receiver :: more) emptyIfaceMap []).2.1 hsMethods = .ok reg2) ∧
    (∀ k, ((registerTargets (receiver :: more) emptyIfaceMap []).1 k).isSome = true ↔
        k ∈ (receiver :: more).map (fun t => t.iface)) ∧
    (∀ k ∈ (receiver :: more).map (fun t => t.iface),
        ∃ t ∈ receiver :: more, t.iface = k ∧
          (registerTargets (receiver :: more) emptyIfaceMap []).1 k = some t.types) ∧
    (∀ h : Handle, (startAtPath env receiver more).2 = .ok h →
        h.handshake = (registerTargets (receiver :: more) emptyIfaceMap []).1) ∧
    (∀ s : ServerState, ∀ op : ServerOp, (serverStep env s op).handshake = s.handshake) := by
  obtain ⟨hnone, hreg⟩ := registerTargets_ok_of_disjoint (receiver :: more)
    emptyIfaceMap [] hpw (by intro t _ m _ hmem; cases hmem)
  refine ⟨hnone, ?_, ?_, ?_, ?_, ?_⟩
  · refine ⟨(registerTargets (receiver :: more) emptyIfaceMap []).2.1 ++ hsMethods, ?_⟩
    rw [registerService]
    have hfind : hsMethods.find?
        (fun m => ((registerTargets (receiver :: more) emptyIfaceMap []).2.1).contains m)
        = none := by
      rw [List.find?_eq_none]
      intro m hm
      rw [hreg]
      simp only [List.nil_append]
      intro hmem
      have hm2 : m ∈ (List.map (fun t => t.methods) (receiver :: more)).flatten := by
        simpa using hmem
      obtain ⟨l, hl, hml⟩ := List.mem_flatten.mp hm2
      obtain ⟨t, ht, rfl⟩ := List.mem_map.mp hl
      exact hhs t ht m hml hm
    rw [hfind]
  · intro k
    rw [registerTargets_map_eq_lastTypes (receiver :: more) hnone k]
    exact lastTypesFor_isSome (receiver :: more) k
  · intro k hk
    rcases hv : lastTypesFor (receiver :: more) k with _ | v
    · have := (lastTypesFor_isSome (receiver :: more) k).mpr hk
      rw [hv] at this
      cases this
    · obtain ⟨t, ht, hik, hty⟩ := lastTypesFor_mem (receiver :: more) k v hv
      exact ⟨t, ht, hik, by
        rw [registerTargets_map_eq_lastTypes (receiver :: more) hnone k, hv, hty]⟩
  · intro h hok
    exact (startAtPath_ok_spec env receiver more h hok).1
  · intro s op
    cases op <;> rfl

/-- Witness for C3 at three concrete targets with pairwise-disjoint
method names. -/
theorem C3_registration_and_handshake_map_witness :
    List.Pairwise (fun a b => ∀ m ∈ a.methods, m ∉ b.methods)
      (plainObj :: [pubObj, valObj]) ∧
    (∀ t ∈ plainObj :: [pubObj, valObj], ∀ m ∈ t.methods, m ∉ hsMethods) ∧
    ((registerTargets (plainObj :: [pubObj, valObj]) emptyIfaceMap []).2.2 = none ∧
     (∃ reg2, registerService
        (registerTargets (plainObj :: [pubObj, valObj]) emptyIfaceMap []).2.1 hsMethods
          = .ok reg2) ∧
     (∀ k, ((registerTargets (plainObj :: [pubObj, valObj]) emptyIfaceMap []).1 k).isSome
          = true ↔ k ∈ (plainObj :: [pubObj, valObj]).map (fun t => t.iface)) ∧
     (∀ k ∈ (plainObj :: [pubObj, valObj]).map (fun t => t.iface),
        ∃ t ∈ plainObj :: [pubObj, valObj], t.iface = k ∧
          (registerTargets (plainObj :: [pubObj, valObj]) emptyIfaceMap []).1 k
            = some t.types) ∧
     (∀ h : Handle, (startAtPath localEnv plainObj [pubObj, valObj]).2 = .ok h →
        h.handshake = (registerTargets (plainObj :: [pubObj, valObj]) emptyIfaceMap []).1) ∧
     (∀ s : ServerState, ∀ op : ServerOp,
        (serverStep localEnv s op).handshake = s.handshake)) :=
  ⟨by decide, by decide,
   C3_registration_and_handshake_map localEnv plainObj [pubObj, valObj]
     (by decide) (by decide)⟩

end InfrakitRPC
